import Mathlib

set_option maxRecDepth 100000

/-!
Verification development for the ESP-Arduino-Utils repository
(src/src/ESPLogger.h and src/src/MQTTManager.h).

The repository ships the two headers only; the method bodies live in
translation units that are not part of the sources. Declarations, inline
code (the `Logger::log` template with its filter gate) and the documented
constants are taken from the headers; every body that is absent is
modelled from the specification text, and each such definition carries a
doc comment starting with `Modelled from the spec:`.

Machine integers (`size_t`, `uint16_t`, `uint32_t`) are modelled as `Nat`;
the logical counters of the ring store are kept unbounded exactly as the
specification describes them ("unbounded logical counters, wrapped to
capacity via modulo for slot addressing"), so no claim below exercises
counter wrap-around. C strings are modelled as `List Char`, one `Char`
per byte.
-/

/-- Log severity levels, from `enum class Level { DEBUG, INFO, WARNING, ERROR }`
in ESPLogger.h line 44. -/
inductive Level where
  | DEBUG
  | INFO
  | WARNING
  | ERROR
deriving DecidableEq

/-- Underlying value of each enumerator, as fixed by C++ enumerator order.
The source compares levels with `>=` on these values. -/
def Level.toNat : Level → Nat
  | Level.DEBUG => 0
  | Level.INFO => 1
  | Level.WARNING => 2
  | Level.ERROR => 3

/-- Maximum number of logs in the circular buffer (ESPLogger.h line 46). -/
def MAX_LOGS : Nat := 100

/-- Maximum size of a log message, null terminator included (ESPLogger.h line 47). -/
def LOG_SIZE : Nat := 156

/-- Maximum size of a log tag, null terminator included (ESPLogger.h line 48). -/
def TAG_SIZE : Nat := 20

/-- Marker appended when a log message is truncated (ESPLogger.h line 50). -/
def OVERFLOW_MSG : List Char := (" [LOG OVERFLOW]").toList

/-- One record of the ring store, mirroring `struct LogEntry` of
ESPLogger.h lines 105-109: `char tag[TAG_SIZE]`, `Level level`,
`char message[LOG_SIZE]`. A C string of capacity `n` holds at most
`n - 1` characters before its null terminator. -/
structure LogEntry where
  tag : List Char
  level : Level
  message : List Char
deriving DecidableEq

/-- Arguments of one call to `Logger::log`: tag, severity level and
message text, before any storage-side truncation. -/
structure Call where
  tag : List Char
  level : Level
  msg : List Char
deriving DecidableEq

/-- Modelled from the spec: the body of `Logger::addLog` is absent, and
the specification bounds the stored tag text by the `TAG_SIZE` byte
capacity of the `char tag[TAG_SIZE]` field, so a tag keeps at most
`TAG_SIZE - 1` characters. -/
def truncTag (t : List Char) : List Char :=
  t.take (TAG_SIZE - 1)

/-- Modelled from the spec: the body of `Logger::addLog` is absent; per
spec section 4.1, message text longer than 155 bytes is truncated and the
overflow marker is appended within the fixed `LOG_SIZE` capacity. -/
def truncMsg (m : List Char) : List Char :=
  if m.length ≤ LOG_SIZE - 1 then m
  else m.take (LOG_SIZE - 1 - OVERFLOW_MSG.length) ++ OVERFLOW_MSG

/-- Record stored for a log call, after the capacity-bounding of both
text fields. -/
def mkEntry (tag : List Char) (lvl : Level) (msg : List Char) : LogEntry :=
  ⟨truncTag tag, lvl, truncMsg msg⟩

/-- State of the `Logger` singleton (private section of ESPLogger.h,
lines 152-160): the slot array `buffer`, the write counter `head`, the
read counter `tail`, the live-record counter `count`, and the filter
level. Per spec section 3 the counters are unbounded logical counters,
reduced modulo `MAX_LOGS` only for slot addressing, so `head` is also
the total number of records ever written. -/
structure LoggerState where
  buffer : Nat → LogEntry
  head : Nat
  tail : Nat
  count : Nat
  filterLevel : Level

/-- Logger state at process start: empty slots, zeroed counters, and the
given filter level (the source default-initializes `filterLevel` to
`Level::DEBUG`). -/
def emptyLogger (f : Level) : LoggerState :=
  { buffer := fun _ => ⟨[], Level.DEBUG, []⟩
    head := 0
    tail := 0
    count := 0
    filterLevel := f }

/-- Modelled from the spec: the body of `Logger::addLog` is absent.
Spec section 4.1: append writes the capacity-bounded record into the
next slot; if the store is full it silently overwrites the oldest live
record, advancing the read counter and holding the live count at
capacity, otherwise the live count grows by one. No error is raised. -/
def addLog (s : LoggerState) (tag : List Char) (lvl : Level) (msg : List Char) :
    LoggerState :=
  if s.count = MAX_LOGS then
    { s with
      buffer := fun i => if i = s.head % MAX_LOGS then mkEntry tag lvl msg else s.buffer i
      head := s.head + 1
      tail := s.tail + 1 }
  else
    { s with
      buffer := fun i => if i = s.head % MAX_LOGS then mkEntry tag lvl msg else s.buffer i
      head := s.head + 1
      count := s.count + 1 }

/-- One call of `Logger::log` (ESPLogger.h lines 84-90, the inline
template, and the plain overload of line 98): when
`level >= filterLevel` the record is appended via `addLog` and, per spec
section 4.2, the registered callback and every observer are then invoked
synchronously with the call arguments; the returned list holds that
notification. When `level < filterLevel` the call does nothing and
notifies nobody. -/
def log (s : LoggerState) (tag : List Char) (lvl : Level) (msg : List Char) :
    LoggerState × List Call :=
  if s.filterLevel.toNat ≤ lvl.toNat then
    (addLog s tag lvl msg, [⟨tag, lvl, msg⟩])
  else
    (s, [])

/-- Modelled from the spec: the body of `Logger::getNextLog` is absent.
Spec section 4.1: `takeOldest` pops and removes the oldest live record,
returning false (here `none`) if the store is empty. -/
def getNextLog (s : LoggerState) : Option LogEntry × LoggerState :=
  if s.count = 0 then
    (none, s)
  else
    (some (s.buffer (s.tail % MAX_LOGS)),
     { s with tail := s.tail + 1, count := s.count - 1 })

/-- Modelled from the spec: the body of `Logger::peekNextLog` is absent.
Spec section 4.1: `peek` reads the record `offset` positions after the
current oldest without removing it, returning false (here `none`) if the
offset is at or past the live count; the state is passed through
untouched. -/
def peekNextLog (s : LoggerState) (offset : Nat) : Option LogEntry × LoggerState :=
  (if offset < s.count then some (s.buffer ((s.tail + offset) % MAX_LOGS)) else none, s)

/-- Number of valid log entries in the buffer (`Logger::getValidLogCount`,
which the spec equates with the live count). -/
def getValidLogCount (s : LoggerState) : Nat :=
  s.count

/-- Total number of log entries added since startup (`Logger::getLogCount`,
which the spec equates with the monotonic total-ever-written counter). -/
def getLogCount (s : LoggerState) : Nat :=
  s.head

/-- Fold a sequence of log calls through `log`, keeping the state. -/
def logAll (s : LoggerState) (calls : List Call) : LoggerState :=
  calls.foldl (fun t c => (log t c.tag c.level c.msg).1) s

/-- Fold a sequence of records through `addLog` alone (the accepted-call
path of `log`). -/
def addAll (s : LoggerState) (calls : List Call) : LoggerState :=
  calls.foldl (fun t c => addLog t c.tag c.level c.msg) s

/-- Read the store destructively `n` times through `getNextLog`,
collecting the returned records in order. -/
def drainAll : Nat → LoggerState → List LogEntry × LoggerState
  | 0, s => ([], s)
  | n + 1, s =>
    match getNextLog s with
    | (none, s1) => ([], s1)
    | (some e, s1) =>
      let rest := drainAll n s1
      (e :: rest.1, rest.2)

/-- Authentication modes for the MQTT connection, from `enum class AuthMode`
in MQTTManager.h lines 40-43. -/
inductive AuthMode where
  | TLS_CERT_AUTH
  | TLS_USER_PASS_AUTH
deriving DecidableEq

/-- Configuration structure of the manager, mirroring
`ESPMQTTManager::Config` of MQTTManager.h lines 49-63 field by field,
defaults included. `const char*` fields become `String`, the integer
fields become `Nat` except the signed `int port`. -/
structure Config where
  server : String
  port : Int
  username : String
  password : String
  rootCA : String
  clientCert : String
  clientKey : String
  clientID : String
  reconnectInterval : Nat := 5000
  publishTimeout : Nat := 1000
  maxRetries : Nat := 5
  authMode : AuthMode := AuthMode.TLS_USER_PASS_AUTH
  publishBufferSize : Nat := 5
deriving DecidableEq

/-- Item of the publish buffer, mirroring `ESPMQTTManager::PublishItem`
of MQTTManager.h lines 69-73. -/
structure PublishItem where
  topic : String
  payload : String
  retained : Bool
deriving DecidableEq

/-- Recorded subscription: the manager keeps
`std::vector<std::pair<String, uint8_t>> subscriptions` (MQTTManager.h
line 154). -/
structure Subscription where
  topic : String
  qos : Nat
deriving DecidableEq

/-- Connection states of the manager, as named by spec section 3. -/
inductive ConnState where
  | UNINITIALIZED
  | CONNECTING
  | CONNECTED
  | RETRY_BACKOFF
  | STOPPED
deriving DecidableEq

/-- Mutable state of `ESPMQTTManager` (private section of MQTTManager.h,
lines 148-157): the construction-time configuration, the connection
state, the retry counter, the recorded subscriptions in registration
order, and the bounded publish backlog in FIFO order. The transport
handles themselves are opaque collaborators and are driven through the
oracle of `smStep`. -/
structure MQTTState where
  config : Config
  connState : ConnState
  retryCount : Nat
  subscriptions : List Subscription
  backlog : List PublishItem
deriving DecidableEq

/-- Behaviour of the opaque transport during one interaction: whether a
connect attempt would succeed, and whether an established connection is
still up when polled. -/
structure Oracle where
  connectOk : Bool
  transportConnected : Bool
deriving DecidableEq

/-- Transport oracle that fails every connect attempt and reports every
established connection as lost. -/
def allFail : Oracle := ⟨false, false⟩

/-- Externally visible interactions of one state-machine step with the
transport: a connect attempt, or a subscribe command carrying topic and
QoS. -/
inductive MAction where
  | connectAttempt
  | subscribeCmd (topic : String) (qos : Nat)
deriving DecidableEq

/-- Recognizer for connect attempts among emitted actions. -/
def isAttempt : MAction → Bool
  | MAction.connectAttempt => true
  | MAction.subscribeCmd _ _ => false

/-- State of a freshly constructed manager: the given configuration and
zeroed mutable state (`ESPMQTTManager::ESPMQTTManager`). -/
def mkManager (cfg : Config) : MQTTState :=
  { config := cfg
    connState := ConnState.UNINITIALIZED
    retryCount := 0
    subscriptions := []
    backlog := [] }

/-- Modelled from the spec: the body of `ESPMQTTManager::begin` is
absent. Spec section 4.3: UNINITIALIZED moves to CONNECTING on `begin`;
calling it in any other state is a misuse reported as failure. -/
def begin (s : MQTTState) : Bool × MQTTState :=
  if s.connState = ConnState.UNINITIALIZED then
    (true, { s with connState := ConnState.CONNECTING })
  else
    (false, s)

/-- Modelled from the spec: the body of `ESPMQTTManager::stop` is
absent. Spec section 4.3: any state moves to STOPPED on an explicit
`stop` call, terminally. -/
def stop (s : MQTTState) : MQTTState :=
  { s with connState := ConnState.STOPPED }

/-- Connection snapshot (`ESPMQTTManager::isConnected`), a non-blocking
read of whether the state machine is in CONNECTED. -/
def isConnected (s : MQTTState) : Bool :=
  if s.connState = ConnState.CONNECTED then true else false

/-- Modelled from the spec: the bodies of `ESPMQTTManager::task`,
`connect` and `resubscribe` are absent. One step of the connection state
machine per spec section 4.3, driven by the transport oracle, returning
the new state and the transport interactions of the step:
CONNECTING attempts a connect, moving to CONNECTED on success (the
retry counter resets to 0 and every recorded subscription is re-issued
in registration order, unconditionally, since a failed single
resubscribe is logged and does not block the remaining ones) and to
RETRY_BACKOFF on failure with the retry counter incremented;
RETRY_BACKOFF moves to STOPPED once the retry counter has reached
`maxRetries` and otherwise back to CONNECTING after the backoff wait;
CONNECTED falls back to RETRY_BACKOFF when the transport reports the
connection lost; UNINITIALIZED and STOPPED are inert. -/
def smStep (o : Oracle) (s : MQTTState) : MQTTState × List MAction :=
  if s.connState = ConnState.CONNECTING then
    if o.connectOk then
      ({ s with connState := ConnState.CONNECTED, retryCount := 0 },
       MAction.connectAttempt ::
         s.subscriptions.map (fun p => MAction.subscribeCmd p.topic p.qos))
    else
      ({ s with connState := ConnState.RETRY_BACKOFF, retryCount := s.retryCount + 1 },
       [MAction.connectAttempt])
  else if s.connState = ConnState.RETRY_BACKOFF then
    if s.config.maxRetries ≤ s.retryCount then
      ({ s with connState := ConnState.STOPPED }, [])
    else
      ({ s with connState := ConnState.CONNECTING }, [])
  else if s.connState = ConnState.CONNECTED then
    if o.transportConnected then (s, [])
    else ({ s with connState := ConnState.RETRY_BACKOFF }, [])
  else
    (s, [])

/-- State after `n` steps of the state machine under a fixed oracle. -/
def smIter (o : Oracle) (s : MQTTState) : Nat → MQTTState
  | 0 => s
  | n + 1 => (smStep o (smIter o s n)).1

/-- Transport interactions emitted by step number `n` of the run. -/
def smTrace (o : Oracle) (s : MQTTState) (n : Nat) : List MAction :=
  (smStep o (smIter o s n)).2

/-- Number of connect attempts among the actions of one step. -/
def attemptCount (l : List MAction) : Nat :=
  l.countP (fun a => isAttempt a)

/-- Total number of connect attempts issued during the first `n` steps
of the run. -/
def attemptsUpTo (o : Oracle) (s : MQTTState) : Nat → Nat
  | 0 => 0
  | n + 1 => attemptsUpTo o s n + attemptCount (smTrace o s n)

/-- Modelled from the spec: the body of `ESPMQTTManager::publish` is
absent. Spec sections 4.4 and 7: calling before `begin` or after `stop`
is a misuse reported as failure; when CONNECTED and the immediate
transport send succeeds the call returns success without buffering;
otherwise the item is pushed onto the bounded backlog when room remains
(capacity `publishBufferSize`), and when the backlog is full the new
item is dropped and failure is reported — no queued item is overwritten.
`sendOk` is the transport verdict for an immediate send. -/
def publish (sendOk : Bool) (s : MQTTState) (topic payload : String)
    (retained : Bool) : Bool × MQTTState :=
  if s.connState = ConnState.UNINITIALIZED ∨ s.connState = ConnState.STOPPED then
    (false, s)
  else if s.connState = ConnState.CONNECTED ∧ sendOk then
    (true, s)
  else if s.backlog.length < s.config.publishBufferSize then
    (true, { s with backlog := s.backlog ++ [⟨topic, payload, retained⟩] })
  else
    (false, s)

/-- Modelled from the spec: the body of `ESPMQTTManager::subscribe` is
absent. Spec sections 4.4 and 7: calling before `begin` or after `stop`
is a misuse reported as failure; otherwise the subscription is recorded
in registration order and, when currently CONNECTED, issued against the
transport immediately, else deferred to the next CONNECTED transition. -/
def subscribe (s : MQTTState) (topic : String) (qos : Nat) :
    Bool × MQTTState × List MAction :=
  if s.connState = ConnState.UNINITIALIZED ∨ s.connState = ConnState.STOPPED then
    (false, s, [])
  else if s.connState = ConnState.CONNECTED then
    (true, { s with subscriptions := s.subscriptions ++ [⟨topic, qos⟩] },
     [MAction.subscribeCmd topic qos])
  else
    (true, { s with subscriptions := s.subscriptions ++ [⟨topic, qos⟩] }, [])

/-- Modelled from the spec: the body of `ESPMQTTManager::setAuthMode` is
absent. The header (MQTTManager.h line 130) declares this public method
and documents it as setting the authentication mode for the MQTT
connection; the only authentication-mode state in the data model is the
`authMode` field of the stored configuration, so the method replaces
that field. -/
def setAuthMode (s : MQTTState) (mode : AuthMode) : MQTTState :=
  { s with config := { s.config with authMode := mode } }

/-- Sample tag of one character. -/
def tagT : List Char := [ 'T' ]

/-- Sample short message. -/
def msgHi : List Char := [ 'h', 'i' ]

/-- Message of 156 bytes, one byte over the 155-character capacity of the
`message` field. -/
def cexMsg : List Char := List.replicate LOG_SIZE 'a'

/-- Log call carrying the over-long message `cexMsg`. -/
def cexCall : Call := ⟨tagT, Level.INFO, cexMsg⟩

/-- Log call carrying a short message that fits every capacity. -/
def demoCall : Call := ⟨tagT, Level.INFO, msgHi⟩

/-- Logger state holding exactly one record. -/
def demoLogger : LoggerState := addLog (emptyLogger Level.DEBUG) tagT Level.INFO msgHi

/-- Sequence of 101 log calls, one more than `MAX_LOGS`. -/
def manyCalls : List Call := List.replicate (MAX_LOGS + 1) demoCall

/-- Manager configuration supplying only the fields that have no default
in the source, so every defaulted field keeps its header default. -/
def cfg0 : Config :=
  { server := "srv"
    port := 8883
    username := "user"
    password := "pass"
    rootCA := "ca"
    clientCert := "cert"
    clientKey := "key"
    clientID := "client" }

/-- Freshly constructed manager over `cfg0`. -/
def mgr0 : MQTTState := mkManager cfg0

/-- Configuration like `cfg0` but allowing a single connect retry. -/
def cfg1 : Config := { cfg0 with maxRetries := 1 }

/-- Manager over `cfg1` as it stands right after `begin`, about to make
its first connect attempt. -/
def smC7 : MQTTState := { mkManager cfg1 with connState := ConnState.CONNECTING }

/-- Two sample subscriptions. -/
def subA : Subscription := ⟨"topicA", 0⟩

/-- Second sample subscription. -/
def subB : Subscription := ⟨"topicB", 1⟩

/-- Transport oracle that lets every interaction succeed. -/
def okOracle : Oracle := ⟨true, true⟩

/-- Manager in CONNECTING with two recorded subscriptions, about to
succeed its connect attempt. -/
def smC8 : MQTTState :=
  { mkManager cfg0 with
    connState := ConnState.CONNECTING
    subscriptions := [subA, subB] }

/-- Sample queued publish item. -/
def itemQ : PublishItem := ⟨"tQ", "pQ", false⟩

/-- Disconnected manager whose publish backlog already holds
`publishBufferSize` (= 5, the `cfg0` default) items. -/
def smC6 : MQTTState :=
  { mkManager cfg0 with
    connState := ConnState.CONNECTING
    backlog := List.replicate 5 itemQ }

/-- Sample publish topic. -/
def topicX : String := "tX"

/-- Sample publish payload. -/
def payloadX : String := "pX"

/-- Slot addresses of two distinct writes that are fewer than `MAX_LOGS`
writes apart never collide. -/
theorem mod_ne_of_window (a b : Nat) (h1 : a < b) (h2 : b < a + MAX_LOGS) :
    a % MAX_LOGS ≠ b % MAX_LOGS := by
  intro h
  have hd : MAX_LOGS ∣ b - a := (Nat.modEq_iff_dvd' (Nat.le_of_lt h1)).1 h
  have hle := Nat.le_of_dvd (by omega) hd
  omega

/-- Appending a record leaves the filter level alone. -/
theorem addLog_filterLevel (s : LoggerState) (t : List Char) (l : Level) (m : List Char) :
    (addLog s t l m).filterLevel = s.filterLevel := by
  unfold addLog
  split
  · rfl
  · rfl

/-- Appending a record leaves the backlog of subscriptions alone and
writes the capacity-bounded record into the slot addressed by the write
counter. -/
theorem addLog_buffer_new (s : LoggerState) (t : List Char) (l : Level) (m : List Char) :
    (addLog s t l m).buffer (s.head % MAX_LOGS) = mkEntry t l m := by
  unfold addLog
  split
  · simp
  · simp

/-- Appending a record leaves every other slot alone. -/
theorem addLog_buffer_old (s : LoggerState) (t : List Char) (l : Level) (m : List Char)
    (i : Nat) (h : i ≠ s.head % MAX_LOGS) :
    (addLog s t l m).buffer i = s.buffer i := by
  unfold addLog
  split
  · simp [h]
  · simp [h]

/-- Counter shape of a state that has absorbed `n` appends from scratch,
carried through one more append. -/
theorem addLog_counters (s : LoggerState) (t : List Char) (l : Level) (m : List Char)
    (n : Nat) (hh : s.head = n) (hc : s.count = min n MAX_LOGS)
    (ht : s.tail = n - min n MAX_LOGS) :
    (addLog s t l m).head = n + 1 ∧
    (addLog s t l m).count = min (n + 1) MAX_LOGS ∧
    (addLog s t l m).tail = (n + 1) - min (n + 1) MAX_LOGS := by
  unfold addLog
  by_cases hfull : s.count = MAX_LOGS
  · rw [if_pos hfull]
    refine ⟨?_, ?_, ?_⟩
    · show s.head + 1 = n + 1
      omega
    · show s.count = min (n + 1) MAX_LOGS
      omega
    · show s.tail + 1 = (n + 1) - min (n + 1) MAX_LOGS
      omega
  · rw [if_neg hfull]
    refine ⟨?_, ?_, ?_⟩
    · show s.head + 1 = n + 1
      omega
    · show s.count + 1 = min (n + 1) MAX_LOGS
      omega
    · show s.tail = (n + 1) - min (n + 1) MAX_LOGS
      omega

/-- Unfolding one append off the right end of a call sequence. -/
theorem addAll_append_single (s : LoggerState) (L : List Call) (c : Call) :
    addAll s (L ++ [c]) = addLog (addAll s L) c.tag c.level c.msg := by
  unfold addAll
  rw [List.foldl_append]
  rfl

/-- Shape of the store after any sequence of accepted appends from the
empty state: the write counter equals the number of appends, the live
count is capped at capacity, the read counter trails by the live count,
the filter level is untouched, and every one of the `MAX_LOGS` most
recent records sits unchanged in its modulo-addressed slot. -/
theorem addAll_spec (f : Level) (L : List Call) :
    (addAll (emptyLogger f) L).head = L.length ∧
    (addAll (emptyLogger f) L).count = min L.length MAX_LOGS ∧
    (addAll (emptyLogger f) L).tail = L.length - min L.length MAX_LOGS ∧
    (addAll (emptyLogger f) L).filterLevel = f ∧
    ∀ j, (hj : j < L.length) → L.length ≤ j + MAX_LOGS →
      (addAll (emptyLogger f) L).buffer (j % MAX_LOGS) =
        mkEntry (L.get ⟨j, hj⟩).tag (L.get ⟨j, hj⟩).level (L.get ⟨j, hj⟩).msg := by
  induction L using List.reverseRecOn with
  | nil =>
    refine ⟨rfl, rfl, rfl, rfl, ?_⟩
    intro j hj _
    simp at hj
  | append_singleton L c ih =>
    obtain ⟨ihh, ihc, iht, ihf, ihb⟩ := ih
    have hstep := addAll_append_single (emptyLogger f) L c
    have hcnt :=
      addLog_counters (addAll (emptyLogger f) L) c.tag c.level c.msg L.length ihh ihc iht
    have hlen : (L ++ [c]).length = L.length + 1 := by simp
    refine ⟨?_, ?_, ?_, ?_, ?_⟩
    · rw [hstep, hlen]
      exact hcnt.1
    · rw [hstep, hlen]
      exact hcnt.2.1
    · rw [hstep, hlen]
      exact hcnt.2.2
    · rw [hstep, addLog_filterLevel]
      exact ihf
    · intro j hj hw
      have hj1 : j < L.length + 1 := by simpa using hj
      have hw1 : L.length + 1 ≤ j + MAX_LOGS := by simpa using hw
      rw [hstep]
      by_cases hjL : j = L.length
      · have hb := addLog_buffer_new (addAll (emptyLogger f) L) c.tag c.level c.msg
        rw [ihh] at hb
        have hidx : j % MAX_LOGS = L.length % MAX_LOGS := by rw [hjL]
        rw [hidx, hb]
        have hg : (L ++ [c]).get ⟨j, hj⟩ = c := by
          subst hjL
          simp
        rw [hg]
      · have hlt : j < L.length := by omega
        have hne : j % MAX_LOGS ≠ (addAll (emptyLogger f) L).head % MAX_LOGS := by
          rw [ihh]
          exact mod_ne_of_window j L.length hlt (by omega)
        rw [addLog_buffer_old _ _ _ _ _ hne]
        have hg : (L ++ [c]).get ⟨j, hj⟩ = L.get ⟨j, hlt⟩ := by
          simp [List.getElem_append_left, hlt]
        rw [ihb j hlt (by omega), hg]

/-- Below-filter calls aside, folding `log` is folding `addLog`. -/
theorem logAll_eq_addAll (L : List Call) (s : LoggerState)
    (h : ∀ c ∈ L, s.filterLevel.toNat ≤ c.level.toNat) :
    logAll s L = addAll s L := by
  induction L generalizing s with
  | nil => rfl
  | cons c L ih =>
    have hc : s.filterLevel.toNat ≤ c.level.toNat := h c (by simp)
    have hstep : (log s c.tag c.level c.msg).1 = addLog s c.tag c.level c.msg := by
      unfold log
      rw [if_pos hc]
    have h1 : logAll s (c :: L) = logAll ((log s c.tag c.level c.msg).1) L := rfl
    have h2 : addAll s (c :: L) = addAll (addLog s c.tag c.level c.msg) L := rfl
    rw [h1, h2, hstep]
    exact ih (addLog s c.tag c.level c.msg) (fun d hd => by
      rw [addLog_filterLevel]
      exact h d (by simp [hd]))

/-- Draining as many records as a slot-by-slot description provides
returns exactly the described records, oldest first. -/
theorem drainAll_eq (es : List LogEntry) : ∀ s : LoggerState, es.length ≤ s.count →
    (∀ i, (hi : i < es.length) → s.buffer ((s.tail + i) % MAX_LOGS) = es.get ⟨i, hi⟩) →
    (drainAll es.length s).1 = es := by
  induction es with
  | nil =>
    intro s _ _
    rfl
  | cons e es ih =>
    intro s hlen hbuf
    have hc : ¬ s.count = 0 := by
      simp only [List.length_cons] at hlen
      omega
    have hg : getNextLog s =
        (some (s.buffer (s.tail % MAX_LOGS)),
         { s with tail := s.tail + 1, count := s.count - 1 }) := by
      unfold getNextLog
      rw [if_neg hc]
    have he : s.buffer (s.tail % MAX_LOGS) = e := by
      have h0 := hbuf 0 (by simp)
      simpa using h0
    have hrec : (drainAll es.length { s with tail := s.tail + 1, count := s.count - 1 }).1
        = es := by
      refine ih _ ?_ ?_
      · show es.length ≤ s.count - 1
        simp only [List.length_cons] at hlen
        omega
      · intro i hi
        show s.buffer ((s.tail + 1 + i) % MAX_LOGS) = es.get ⟨i, hi⟩
        have h1 := hbuf (i + 1) (by simp; omega)
        have h2 : s.tail + (i + 1) = s.tail + 1 + i := by omega
        rw [h2] at h1
        simpa using h1
    show (drainAll (es.length + 1) s).1 = e :: es
    simp only [drainAll, hg]
    simp [he, hrec]

/-- C1 (counterexample): a single accepted log call whose message text is
156 bytes long is read back modified — truncated to 140 bytes with the
overflow marker appended — so the claim that reads return tag, level and
message unmodified fails as stated. -/
theorem c1_fifo_unmodified_cex :
    getValidLogCount (logAll (emptyLogger Level.DEBUG) [cexCall]) = 1 ∧
    (peekNextLog (logAll (emptyLogger Level.DEBUG) [cexCall]) 0).1 ≠
      some ⟨cexCall.tag, cexCall.level, cexCall.msg⟩ ∧
    (peekNextLog (logAll (emptyLogger Level.DEBUG) [cexCall]) 0).1 =
      some ⟨cexCall.tag, cexCall.level,
        cexMsg.take (LOG_SIZE - 1 - OVERFLOW_MSG.length) ++ OVERFLOW_MSG⟩ := by
  decide

/-- C1 (amended): for every sequence of at most `MAX_LOGS` log calls at
or above the filter level, each with a tag that fits `TAG_SIZE - 1`
bytes and a message that fits `LOG_SIZE - 1` bytes, starting from the
empty store, `getValidLogCount` returns the number of calls, every
`peekNextLog` offset returns the corresponding record with tag, level
and message unmodified, and draining with successive `getNextLog` calls
returns the records unmodified in oldest-first FIFO order. -/
theorem c1_fifo_oldest_first_amended (f : Level) (L : List Call)
    (hlen : L.length ≤ MAX_LOGS)
    (hacc : ∀ c ∈ L, f.toNat ≤ c.level.toNat)
    (hfit : ∀ c ∈ L, c.tag.length ≤ TAG_SIZE - 1 ∧ c.msg.length ≤ LOG_SIZE - 1) :
    getValidLogCount (logAll (emptyLogger f) L) = L.length ∧
    (∀ i, (hi : i < L.length) →
      (peekNextLog (logAll (emptyLogger f) L) i).1 =
        some ⟨(L.get ⟨i, hi⟩).tag, (L.get ⟨i, hi⟩).level, (L.get ⟨i, hi⟩).msg⟩) ∧
    (drainAll L.length (logAll (emptyLogger f) L)).1 =
      L.map (fun c => (⟨c.tag, c.level, c.msg⟩ : LogEntry)) := by
  have heq : logAll (emptyLogger f) L = addAll (emptyLogger f) L :=
    logAll_eq_addAll L (emptyLogger f) hacc
  obtain ⟨hh, hc, ht, hf, hb⟩ := addAll_spec f L
  have hmin : min L.length MAX_LOGS = L.length := by omega
  have hmk : ∀ i, (hi : i < L.length) →
      mkEntry (L.get ⟨i, hi⟩).tag (L.get ⟨i, hi⟩).level (L.get ⟨i, hi⟩).msg =
        ⟨(L.get ⟨i, hi⟩).tag, (L.get ⟨i, hi⟩).level, (L.get ⟨i, hi⟩).msg⟩ := by
    intro i hi
    have hmem : L.get ⟨i, hi⟩ ∈ L := List.get_mem L i hi
    obtain ⟨htag, hmsg⟩ := hfit _ hmem
    unfold mkEntry truncTag truncMsg
    rw [List.take_of_length_le htag, if_pos hmsg]
  refine ⟨?_, ?_, ?_⟩
  · rw [heq]
    unfold getValidLogCount
    omega
  · intro i hi
    rw [heq]
    unfold peekNextLog
    have hcnt : i < (addAll (emptyLogger f) L).count := by omega
    rw [if_pos hcnt]
    have htail : (addAll (emptyLogger f) L).tail = 0 := by omega
    rw [htail, Nat.zero_add]
    have hbi := hb i hi (by omega)
    rw [hbi, hmk i hi]
  · rw [heq]
    have hlenmap : (L.map fun c => (⟨c.tag, c.level, c.msg⟩ : LogEntry)).length = L.length := by
      simp
    have hd := drainAll_eq (L.map fun c => (⟨c.tag, c.level, c.msg⟩ : LogEntry))
      (addAll (emptyLogger f) L) (by rw [hlenmap]; omega) ?_
    · rw [hlenmap] at hd
      exact hd
    · intro i hi
      have hi2 : i < L.length := by
        rw [hlenmap] at hi
        exact hi
      have htail : (addAll (emptyLogger f) L).tail = 0 := by omega
      rw [htail, Nat.zero_add]
      have hbi := hb i hi2 (by omega)
      rw [hbi, hmk i hi2]
      simp

/-- C1 (witness): one short accepted call is counted and read back
exactly as supplied. -/
theorem c1_fifo_oldest_first_witness :
    [demoCall].length ≤ MAX_LOGS ∧
    getValidLogCount (logAll (emptyLogger Level.DEBUG) [demoCall]) = 1 ∧
    (peekNextLog (logAll (emptyLogger Level.DEBUG) [demoCall]) 0).1 =
      some ⟨demoCall.tag, demoCall.level, demoCall.msg⟩ := by
  have h := c1_fifo_oldest_first_amended Level.DEBUG [demoCall]
    (by decide) (by decide) (by decide)
  exact ⟨by decide, h.1, h.2.1 0 (by decide)⟩

/-- C2: for every sequence of more than `MAX_LOGS` accepted log calls
from the empty store, the model append (total by construction — no
error path exists), silently overwrites the oldest records:
`getValidLogCount` stays at `MAX_LOGS`, `getLogCount` counts every call,
and the live window read back offset by offset is exactly the most
recent `MAX_LOGS` records in order. -/
theorem c2_overwrite_oldest (f : Level) (L : List Call)
    (hlen : MAX_LOGS < L.length)
    (hacc : ∀ c ∈ L, f.toNat ≤ c.level.toNat) :
    getValidLogCount (logAll (emptyLogger f) L) = MAX_LOGS ∧
    getLogCount (logAll (emptyLogger f) L) = L.length ∧
    ∀ i, (hi : i < MAX_LOGS) →
      (peekNextLog (logAll (emptyLogger f) L) i).1 =
        some (mkEntry (L.get ⟨L.length - MAX_LOGS + i, by omega⟩).tag
          (L.get ⟨L.length - MAX_LOGS + i, by omega⟩).level
          (L.get ⟨L.length - MAX_LOGS + i, by omega⟩).msg) := by
  have heq : logAll (emptyLogger f) L = addAll (emptyLogger f) L :=
    logAll_eq_addAll L (emptyLogger f) hacc
  obtain ⟨hh, hc, ht, hf, hb⟩ := addAll_spec f L
  have hmin : min L.length MAX_LOGS = MAX_LOGS := by omega
  refine ⟨?_, ?_, ?_⟩
  · rw [heq]
    unfold getValidLogCount
    omega
  · rw [heq]
    unfold getLogCount
    omega
  · intro i hi
    rw [heq]
    unfold peekNextLog
    have hcnt : i < (addAll (emptyLogger f) L).count := by omega
    rw [if_pos hcnt]
    have htail : (addAll (emptyLogger f) L).tail = L.length - MAX_LOGS := by omega
    rw [htail]
    have hj : L.length - MAX_LOGS + i < L.length := by omega
    have hbi := hb (L.length - MAX_LOGS + i) hj (by omega)
    rw [hbi]

/-- C2 (witness): 101 identical accepted calls leave 100 live records,
a total count of 101, and the oldest live record is the second call. -/
theorem c2_overwrite_oldest_witness :
    MAX_LOGS < manyCalls.length ∧
    getValidLogCount (logAll (emptyLogger Level.DEBUG) manyCalls) = MAX_LOGS ∧
    getLogCount (logAll (emptyLogger Level.DEBUG) manyCalls) = MAX_LOGS + 1 ∧
    (peekNextLog (logAll (emptyLogger Level.DEBUG) manyCalls) 0).1 =
      some (mkEntry demoCall.tag demoCall.level demoCall.msg) := by
  have h := c2_overwrite_oldest Level.DEBUG manyCalls (by decide) (by decide)
  refine ⟨by decide, h.1, ?_, ?_⟩
  · rw [h.2.1]
    decide
  · have h2 := h.2.2 0 (by decide)
    rw [h2]
    rfl

/-- C3: a message text longer than 155 bytes is stored truncated, the
stored text ends with the overflow marker, and its length plus the null
terminator stays within the fixed `LOG_SIZE` capacity. -/
theorem c3_overflow_marker (s : LoggerState) (t : List Char) (lvl : Level) (m : List Char)
    (hlong : LOG_SIZE - 1 < m.length) :
    ((addLog s t lvl m).buffer (s.head % MAX_LOGS)).message =
      m.take (LOG_SIZE - 1 - OVERFLOW_MSG.length) ++ OVERFLOW_MSG ∧
    List.IsSuffix OVERFLOW_MSG (((addLog s t lvl m).buffer (s.head % MAX_LOGS)).message) ∧
    ((addLog s t lvl m).buffer (s.head % MAX_LOGS)).message.length + 1 ≤ LOG_SIZE := by
  have hb := addLog_buffer_new s t lvl m
  have hmsg : (mkEntry t lvl m).message =
      m.take (LOG_SIZE - 1 - OVERFLOW_MSG.length) ++ OVERFLOW_MSG := by
    unfold mkEntry truncMsg
    simp only
    rw [if_neg (by omega)]
  refine ⟨?_, ?_, ?_⟩
  · rw [hb, hmsg]
  · rw [hb, hmsg]
    exact List.suffix_append _ _
  · rw [hb, hmsg]
    have hts : (m.take (LOG_SIZE - 1 - OVERFLOW_MSG.length)).length =
        LOG_SIZE - 1 - OVERFLOW_MSG.length := by
      rw [List.length_take]
      omega
    rw [List.length_append, hts]
    have hov : OVERFLOW_MSG.length = 15 := by decide
    have hls : LOG_SIZE = 156 := by decide
    omega

/-- C3 (witness): a 156-byte message is stored as its first 140 bytes
followed by the marker, within capacity. -/
theorem c3_overflow_marker_witness :
    LOG_SIZE - 1 < cexMsg.length ∧
    ((addLog (emptyLogger Level.DEBUG) tagT Level.INFO cexMsg).buffer
        ((emptyLogger Level.DEBUG).head % MAX_LOGS)).message =
      cexMsg.take (LOG_SIZE - 1 - OVERFLOW_MSG.length) ++ OVERFLOW_MSG ∧
    ((addLog (emptyLogger Level.DEBUG) tagT Level.INFO cexMsg).buffer
        ((emptyLogger Level.DEBUG).head % MAX_LOGS)).message.length + 1 ≤ LOG_SIZE := by
  have h := c3_overflow_marker (emptyLogger Level.DEBUG) tagT Level.INFO cexMsg (by decide)
  exact ⟨by decide, h.1, h.2.2⟩

/-- C4: a log call whose level is strictly below the filter level is a
complete no-op — the state (ring buffer and counters included) is
returned unchanged and no callback or observer notification is
emitted, so the record can never appear in a later read. -/
theorem c4_below_filter_noop (s : LoggerState) (t : List Char) (lvl : Level)
    (m : List Char) (h : lvl.toNat < s.filterLevel.toNat) :
    log s t lvl m = (s, []) := by
  unfold log
  rw [if_neg (by omega)]

/-- C4 (witness): a DEBUG call against an ERROR filter changes nothing
and notifies nobody. -/
theorem c4_below_filter_noop_witness :
    Level.toNat Level.DEBUG < Level.toNat Level.ERROR ∧
    log (emptyLogger Level.ERROR) tagT Level.DEBUG msgHi = (emptyLogger Level.ERROR, []) := by
  exact ⟨by decide,
    c4_below_filter_noop (emptyLogger Level.ERROR) tagT Level.DEBUG msgHi (by decide)⟩

/-- C5: `peekNextLog` passes the state through untouched (so
`getValidLogCount` never changes) and returns nothing exactly when the
offset is at or past the live count; `getNextLog` pops one record and
decreases `getValidLogCount` by exactly one when the store is
non-empty, and returns nothing leaving the state (count zero included)
unchanged when it is empty. -/
theorem c5_peek_pop_counts (s : LoggerState) (off : Nat) :
    (peekNextLog s off).2 = s ∧
    getValidLogCount (peekNextLog s off).2 = getValidLogCount s ∧
    ((peekNextLog s off).1 = none ↔ getValidLogCount s ≤ off) ∧
    (getValidLogCount s ≠ 0 →
      (getNextLog s).1.isSome = true ∧
      getValidLogCount (getNextLog s).2 = getValidLogCount s - 1) ∧
    (getValidLogCount s = 0 → getNextLog s = (none, s)) := by
  unfold peekNextLog getNextLog getValidLogCount
  refine ⟨rfl, rfl, ?_, ?_, ?_⟩
  · by_cases hoff : off < s.count
    · rw [if_pos hoff]
      simp
      omega
    · rw [if_neg hoff]
      simp
      omega
  · intro hne
    rw [if_neg hne]
    exact ⟨rfl, rfl⟩
  · intro hz
    rw [if_pos hz]

/-- C5 (witness): peeking a one-record store changes nothing, an
out-of-range peek returns nothing, popping brings the count to zero,
and popping the empty store fails leaving it untouched. -/
theorem c5_peek_pop_counts_witness :
    (peekNextLog demoLogger 0).2 = demoLogger ∧
    (peekNextLog demoLogger 3).1 = none ∧
    getValidLogCount (getNextLog demoLogger).2 = 0 ∧
    getNextLog (emptyLogger Level.DEBUG) = (none, emptyLogger Level.DEBUG) := by
  refine ⟨(c5_peek_pop_counts demoLogger 0).1, ?_, ?_, ?_⟩
  · exact ((c5_peek_pop_counts demoLogger 3).2.2.1).mpr (by decide)
  · have h := ((c5_peek_pop_counts demoLogger 0).2.2.2.1) (by decide)
    rw [h.2]
    decide
  · exact ((c5_peek_pop_counts (emptyLogger Level.DEBUG) 0).2.2.2.2) (by decide)

/-- C6: publishing while not connected when the backlog already holds
`publishBufferSize` items returns false and leaves the state — backlog
contents and size included — exactly as it was: the new item is dropped,
nothing is overwritten, and since the state is unchanged the item can
never be drained later. -/
theorem c6_backlog_full_drop (sendOk : Bool) (s : MQTTState) (t p : String) (r : Bool)
    (hdisc : ¬ s.connState = ConnState.CONNECTED)
    (hfull : s.backlog.length = s.config.publishBufferSize) :
    publish sendOk s t p r = (false, s) := by
  unfold publish
  by_cases hmis : s.connState = ConnState.UNINITIALIZED ∨ s.connState = ConnState.STOPPED
  · rw [if_pos hmis]
  · rw [if_neg hmis, if_neg (by tauto), if_neg (by omega)]

/-- C6 (witness): with the default capacity of 5 and a 5-item backlog,
a disconnected publish fails and changes nothing. -/
theorem c6_backlog_full_drop_witness :
    smC6.backlog.length = smC6.config.publishBufferSize ∧
    publish true smC6 topicX payloadX false = (false, smC6) := by
  exact ⟨by decide,
    c6_backlog_full_drop true smC6 topicX payloadX false (by decide) (by decide)⟩

/-- Stopped is inert: a step from STOPPED changes nothing and interacts
with the transport in no way. -/
theorem smStep_stopped (o : Oracle) (s : MQTTState)
    (h : s.connState = ConnState.STOPPED) :
    smStep o s = (s, []) := by
  unfold smStep
  rw [if_neg (by rw [h]; decide), if_neg (by rw [h]; decide), if_neg (by rw [h]; decide)]

/-- A failed connect attempt moves CONNECTING to RETRY_BACKOFF,
incrementing the retry counter and issuing exactly one attempt. -/
theorem smStep_connecting_fail (s : MQTTState)
    (h : s.connState = ConnState.CONNECTING) :
    smStep allFail s =
      ({ s with connState := ConnState.RETRY_BACKOFF, retryCount := s.retryCount + 1 },
       [MAction.connectAttempt]) := by
  unfold smStep
  rw [if_pos h]
  rfl

/-- Backoff with the retry budget left moves back to CONNECTING without
touching the transport. -/
theorem smStep_backoff_continue (s : MQTTState)
    (h : s.connState = ConnState.RETRY_BACKOFF)
    (hlt : s.retryCount < s.config.maxRetries) :
    smStep allFail s = ({ s with connState := ConnState.CONNECTING }, []) := by
  unfold smStep
  rw [if_neg (by rw [h]; decide), if_pos h, if_neg (by omega)]

/-- Backoff with the retry budget exhausted moves to the terminal
STOPPED state without touching the transport. -/
theorem smStep_backoff_stop (s : MQTTState)
    (h : s.connState = ConnState.RETRY_BACKOFF)
    (hge : s.config.maxRetries ≤ s.retryCount) :
    smStep allFail s = ({ s with connState := ConnState.STOPPED }, []) := by
  unfold smStep
  rw [if_neg (by rw [h]; decide), if_pos h, if_pos hge]

/-- One-step unfolding of the iterated run. -/
theorem smIter_succ (o : Oracle) (s : MQTTState) (n : Nat) :
    smIter o s (n + 1) = (smStep o (smIter o s n)).1 := rfl

/-- One-step unfolding of the attempt counter. -/
theorem attemptsUpTo_succ (o : Oracle) (s : MQTTState) (n : Nat) :
    attemptsUpTo o s (n + 1) = attemptsUpTo o s n + attemptCount (smTrace o s n) := rfl

/-- A single connect attempt counts once. -/
theorem attemptCount_single : attemptCount [MAction.connectAttempt] = 1 := rfl

/-- No actions, no attempts. -/
theorem attemptCount_nil : attemptCount [] = 0 := rfl

/-- Under the always-failing transport, the run that starts CONNECTING
with a zero retry counter cycles CONNECTING to RETRY_BACKOFF and back:
before the retry budget runs out, after `2 * i` steps it is CONNECTING
again with retry counter `i`, having issued exactly `i` attempts. -/
theorem allFail_run (cfg : Config) (subs : List Subscription) (bl : List PublishItem) :
    ∀ i, i < cfg.maxRetries →
      smIter allFail ⟨cfg, ConnState.CONNECTING, 0, subs, bl⟩ (2 * i) =
        ⟨cfg, ConnState.CONNECTING, i, subs, bl⟩ ∧
      attemptsUpTo allFail ⟨cfg, ConnState.CONNECTING, 0, subs, bl⟩ (2 * i) = i := by
  intro i
  induction i with
  | zero =>
    intro _
    exact ⟨rfl, rfl⟩
  | succ i ih =>
    intro hlt
    obtain ⟨ihs, iha⟩ := ih (by omega)
    have harith : 2 * (i + 1) = 2 * i + 1 + 1 := by ring
    have h1 : smIter allFail ⟨cfg, ConnState.CONNECTING, 0, subs, bl⟩ (2 * i + 1) =
        ⟨cfg, ConnState.RETRY_BACKOFF, i + 1, subs, bl⟩ := by
      rw [smIter_succ, ihs, smStep_connecting_fail _ rfl]
    have ht0 : smTrace allFail ⟨cfg, ConnState.CONNECTING, 0, subs, bl⟩ (2 * i) =
        [MAction.connectAttempt] := by
      unfold smTrace
      rw [ihs, smStep_connecting_fail _ rfl]
    have ht1 : smTrace allFail ⟨cfg, ConnState.CONNECTING, 0, subs, bl⟩ (2 * i + 1) = [] := by
      unfold smTrace
      rw [h1, smStep_backoff_continue _ rfl (by show i + 1 < cfg.maxRetries; omega)]
    constructor
    · rw [harith, smIter_succ, h1,
        smStep_backoff_continue _ rfl (by show i + 1 < cfg.maxRetries; omega)]
    · rw [harith, attemptsUpTo_succ, attemptsUpTo_succ, iha, ht0, ht1,
        attemptCount_single, attemptCount_nil]

/-- Under the always-failing transport, after its `maxRetries`-th failed
attempt the run reaches the terminal STOPPED state at step
`2 * maxRetries`, having issued exactly `maxRetries` attempts. -/
theorem allFail_terminal (cfg : Config) (subs : List Subscription) (bl : List PublishItem)
    (hR : 1 ≤ cfg.maxRetries) :
    smIter allFail ⟨cfg, ConnState.CONNECTING, 0, subs, bl⟩ (2 * cfg.maxRetries) =
      ⟨cfg, ConnState.STOPPED, cfg.maxRetries, subs, bl⟩ ∧
    attemptsUpTo allFail ⟨cfg, ConnState.CONNECTING, 0, subs, bl⟩ (2 * cfg.maxRetries) =
      cfg.maxRetries := by
  obtain ⟨j, hj⟩ : ∃ j, cfg.maxRetries = j + 1 := ⟨cfg.maxRetries - 1, by omega⟩
  obtain ⟨ihs, iha⟩ := allFail_run cfg subs bl j (by omega)
  have harith : 2 * cfg.maxRetries = 2 * j + 1 + 1 := by omega
  have h1 : smIter allFail ⟨cfg, ConnState.CONNECTING, 0, subs, bl⟩ (2 * j + 1) =
      ⟨cfg, ConnState.RETRY_BACKOFF, j + 1, subs, bl⟩ := by
    rw [smIter_succ, ihs, smStep_connecting_fail _ rfl]
  have ht0 : smTrace allFail ⟨cfg, ConnState.CONNECTING, 0, subs, bl⟩ (2 * j) =
      [MAction.connectAttempt] := by
    unfold smTrace
    rw [ihs, smStep_connecting_fail _ rfl]
  have ht1 : smTrace allFail ⟨cfg, ConnState.CONNECTING, 0, subs, bl⟩ (2 * j + 1) = [] := by
    unfold smTrace
    rw [h1, smStep_backoff_stop _ rfl (by show cfg.maxRetries ≤ j + 1; omega)]
  constructor
  · rw [harith, smIter_succ, h1,
      smStep_backoff_stop _ rfl (by show cfg.maxRetries ≤ j + 1; omega)]
    rw [hj]
  · rw [harith, attemptsUpTo_succ, attemptsUpTo_succ, iha, ht0, ht1,
      attemptCount_single, attemptCount_nil]
    omega

/-- Once the always-failing run has exhausted its retry budget it stays
in STOPPED forever: the state is frozen, every step is silent, and the
attempt total never grows past `maxRetries`. -/
theorem allFail_forever (cfg : Config) (subs : List Subscription) (bl : List PublishItem)
    (hR : 1 ≤ cfg.maxRetries) :
    ∀ m, 2 * cfg.maxRetries ≤ m →
      smIter allFail ⟨cfg, ConnState.CONNECTING, 0, subs, bl⟩ m =
        ⟨cfg, ConnState.STOPPED, cfg.maxRetries, subs, bl⟩ ∧
      smTrace allFail ⟨cfg, ConnState.CONNECTING, 0, subs, bl⟩ m = [] ∧
      attemptsUpTo allFail ⟨cfg, ConnState.CONNECTING, 0, subs, bl⟩ m = cfg.maxRetries := by
  obtain ⟨hterm, hatt⟩ := allFail_terminal cfg subs bl hR
  intro m hm
  induction m, hm using Nat.le_induction with
  | base =>
    refine ⟨hterm, ?_, hatt⟩
    unfold smTrace
    rw [hterm, smStep_stopped _ _ rfl]
  | succ m hm ih =>
    obtain ⟨ihs, iht, iha⟩ := ih
    have hs : smIter allFail ⟨cfg, ConnState.CONNECTING, 0, subs, bl⟩ (m + 1) =
        ⟨cfg, ConnState.STOPPED, cfg.maxRetries, subs, bl⟩ := by
      rw [smIter_succ, ihs, smStep_stopped _ _ rfl]
    refine ⟨hs, ?_, ?_⟩
    · unfold smTrace
      rw [hs, smStep_stopped _ _ rfl]
    · rw [attemptsUpTo_succ, iha, iht, attemptCount_nil]
      omega

/-- C7: when every connect attempt fails, a run started by `begin` (in
CONNECTING with a zero retry counter) issues exactly `maxRetries`
connect attempts during its first `2 * maxRetries` steps, and from then
on it is in the terminal STOPPED state at every step: `isConnected`
returns false on every later call, no step emits any transport action,
and the cumulative number of connect attempts stays frozen at
`maxRetries` — no automatic self-healing. -/
theorem c7_bounded_retry_terminal (s : MQTTState)
    (hC : s.connState = ConnState.CONNECTING) (h0 : s.retryCount = 0)
    (hR : 1 ≤ s.config.maxRetries) :
    attemptsUpTo allFail s (2 * s.config.maxRetries) = s.config.maxRetries ∧
    ∀ m, 2 * s.config.maxRetries ≤ m →
      (smIter allFail s m).connState = ConnState.STOPPED ∧
      isConnected (smIter allFail s m) = false ∧
      smTrace allFail s m = [] ∧
      attemptsUpTo allFail s m = s.config.maxRetries := by
  obtain ⟨cfg, cs, rc, subs, bl⟩ := s
  subst hC
  subst h0
  refine ⟨(allFail_terminal cfg subs bl hR).2, ?_⟩
  intro m hm
  obtain ⟨hs, htr, ha⟩ := allFail_forever cfg subs bl hR m hm
  refine ⟨?_, ?_, htr, ha⟩
  · rw [hs]
  · rw [hs]
    rfl

/-- C7 (witness): with a retry budget of one, two steps of the
always-failing run reach STOPPED after exactly one attempt, silent and
disconnected thereafter. -/
theorem c7_bounded_retry_terminal_witness :
    smC7.connState = ConnState.CONNECTING ∧
    1 ≤ smC7.config.maxRetries ∧
    attemptsUpTo allFail smC7 2 = 1 ∧
    (smIter allFail smC7 2).connState = ConnState.STOPPED ∧
    isConnected (smIter allFail smC7 2) = false ∧
    smTrace allFail smC7 2 = [] := by
  have h := c7_bounded_retry_terminal smC7 rfl rfl (by decide)
  have h2 := h.2 2 (by decide)
  exact ⟨rfl, by decide, h.1, h2.1, h2.2.1, h2.2.2.1⟩

/-- C8: the only transition into CONNECTED is the successful connect out
of CONNECTING, and on it the retry counter is reset to 0 and every
previously recorded subscription is re-issued against the transport
exactly once, in registration order; the emitted commands do not depend
on the outcome of any individual resubscribe, so one failing does not
block the remaining ones. -/
theorem c8_resubscribe_on_connected (o : Oracle) (s : MQTTState)
    (hC : s.connState = ConnState.CONNECTING) (hOk : o.connectOk = true) :
    smStep o s =
      ({ s with connState := ConnState.CONNECTED, retryCount := 0 },
       MAction.connectAttempt ::
         s.subscriptions.map (fun p => MAction.subscribeCmd p.topic p.qos)) := by
  unfold smStep
  rw [if_pos hC, hOk]
  rfl

/-- C8 (witness): a successful connect with two recorded subscriptions
re-issues both, in order, with the retry counter reset. -/
theorem c8_resubscribe_on_connected_witness :
    smC8.connState = ConnState.CONNECTING ∧
    okOracle.connectOk = true ∧
    smStep okOracle smC8 =
      ({ smC8 with connState := ConnState.CONNECTED, retryCount := 0 },
       [MAction.connectAttempt, MAction.subscribeCmd subA.topic subA.qos,
        MAction.subscribeCmd subB.topic subB.qos]) := by
  have h := c8_resubscribe_on_connected okOracle smC8 rfl rfl
  exact ⟨rfl, rfl, h⟩

/-- C9 (counterexample): `setAuthMode` is a public operation that does
change a configuration field after construction — flipping the
authentication mode of a freshly constructed manager yields a different
stored configuration — so the claim that no public operation changes any
configuration field fails as stated. -/
theorem c9_config_immutable_cex :
    (setAuthMode mgr0 AuthMode.TLS_CERT_AUTH).config ≠ mgr0.config := by
  decide

/-- C9 (amended): every public operation of the manager model except
`setAuthMode` leaves the stored configuration untouched, and
`setAuthMode` replaces exactly the authentication-mode field, leaving
broker address and port, the credential and certificate material, the
client identifier, the reconnect interval, the publish timeout, the
retry bound and the backlog capacity unchanged. -/
theorem c9_config_immutable_amended (s : MQTTState) (mode : AuthMode) (t p : String)
    (r : Bool) (q : Nat) (sendOk : Bool) (o : Oracle) :
    (publish sendOk s t p r).2.config = s.config ∧
    (subscribe s t q).2.1.config = s.config ∧
    (smStep o s).1.config = s.config ∧
    (begin s).2.config = s.config ∧
    (stop s).config = s.config ∧
    (setAuthMode s mode).config.server = s.config.server ∧
    (setAuthMode s mode).config.port = s.config.port ∧
    (setAuthMode s mode).config.username = s.config.username ∧
    (setAuthMode s mode).config.password = s.config.password ∧
    (setAuthMode s mode).config.rootCA = s.config.rootCA ∧
    (setAuthMode s mode).config.clientCert = s.config.clientCert ∧
    (setAuthMode s mode).config.clientKey = s.config.clientKey ∧
    (setAuthMode s mode).config.clientID = s.config.clientID ∧
    (setAuthMode s mode).config.reconnectInterval = s.config.reconnectInterval ∧
    (setAuthMode s mode).config.publishTimeout = s.config.publishTimeout ∧
    (setAuthMode s mode).config.maxRetries = s.config.maxRetries ∧
    (setAuthMode s mode).config.publishBufferSize = s.config.publishBufferSize ∧
    (setAuthMode s mode).config.authMode = mode := by
  refine ⟨?_, ?_, ?_, ?_, rfl, rfl, rfl, rfl, rfl, rfl, rfl, rfl, rfl, rfl, rfl,
    rfl, rfl, rfl⟩
  · unfold publish
    repeat' split
    all_goals rfl
  · unfold subscribe
    repeat' split
    all_goals rfl
  · unfold smStep
    repeat' split
    all_goals rfl
  · unfold begin
    repeat' split
    all_goals rfl

/-- C10: a configuration built without supplying the defaulted fields
carries the header defaults — reconnect interval 5000 ms, publish
timeout 1000 ms, 5 retries, username-password TLS authentication, and a
publish backlog capacity of 5 — so a default-configured manager whose
connect attempts all fail is STOPPED after its 5th attempt, and a
disconnected publish against a 5-item backlog fails. -/
theorem c10_config_defaults :
    cfg0.reconnectInterval = 5000 ∧
    cfg0.publishTimeout = 1000 ∧
    cfg0.maxRetries = 5 ∧
    cfg0.authMode = AuthMode.TLS_USER_PASS_AUTH ∧
    cfg0.publishBufferSize = 5 ∧
    (smIter allFail (begin mgr0).2 (2 * cfg0.maxRetries)).connState = ConnState.STOPPED ∧
    attemptsUpTo allFail (begin mgr0).2 (2 * cfg0.maxRetries) = 5 ∧
    (publish true smC6 topicX payloadX false).1 = false := by
  decide
